import Mathlib

/-!
# Shallow embedding of the `vecgrid` crate (`src/lib.rs`)

A `Vecgrid<T>` is a dense two-dimensional container backed by one flat
row-major buffer together with `num_rows` and `num_columns`.  The Lean
definitions below are direct translations of the Rust methods:

* `Vec<T>` becomes `List α`; `usize` becomes `Nat` (the crate never relies
  on wrap-around arithmetic: in the one place a subtraction can underflow,
  Rust's checked debug semantics abort, which we model as a panic);
* fallible methods returning `Result<_, Error>` become `Except Error _`;
  methods that mutate `&mut self` additionally return the updated grid,
  so `fn f(&mut self, ..) -> Result<(), Error>` becomes
  `f : Vecgrid α → .. → Except Error Unit × Vecgrid α`, the grid component
  being unchanged on the error path exactly as in the source;
* a reachable Rust panic (`expect`, slice/drain range failure, division by
  zero, index arithmetic underflow) is modelled by an outer `Option`:
  `none` is a panic, `some` a normal return.  Buffer indexing such as
  `self.vecgrid[index]` inside `get`/`get_mut`/`set` is guarded by
  `get_index`, whose bound together with the representation invariant
  `buffer.len() = num_rows * num_columns` keeps it in range, so it is
  modelled with the total `List` operations (`[·]?`, `List.set`,
  `take`/`drop`), which agree with the source on every well-formed grid;
* Rust iterators are modelled by the finite list of elements they yield;
  the lazy inputs of the `from_iter_*` constructors are modelled by an
  arbitrary list, of which the source pulls only the first
  `rows * cols` items (`List.take`);
* the stateful `FnMut() -> T` generator of the `filled_by_*` constructors
  is modelled by a state-transition function `gen : σ → α × σ`; `genRun`
  threads the state through the successive calls.
-/

namespace VecgridSpec

instance {ε β : Type} [DecidableEq ε] [DecidableEq β] :
    DecidableEq (Except ε β) := fun a b =>
  match a, b with
  | .ok x, .ok y => decidable_of_iff (x = y) (by simp [Except.ok.injEq])
  | .ok _, .error _ => isFalse (fun h => Except.noConfusion h)
  | .error _, .ok _ => isFalse (fun h => Except.noConfusion h)
  | .error x, .error y =>
      decidable_of_iff (x = y) (by simp [Except.error.injEq])

/-- The `Error` enum of the crate. -/
inductive Error where
  | IndicesOutOfBounds : Nat → Nat → Error
  | IndexOutOfBounds : Nat → Error
  | DimensionMismatch : Error
  | NotEnoughElements : Error
deriving DecidableEq

/-- The `Vecgrid<T>` struct: flat row-major buffer plus the two dimensions. -/
structure Vecgrid (α : Type) where
  vecgrid : List α
  num_rows : Nat
  num_columns : Nat
deriving DecidableEq

/-- The representation invariant of the crate:
`buffer.len() == num_rows * num_columns`. -/
def WF {α : Type} (g : Vecgrid α) : Prop :=
  g.vecgrid.length = g.num_rows * g.num_columns

instance {α : Type} [DecidableEq α] (g : Vecgrid α) : Decidable (WF g) := by
  unfold WF; infer_instance

variable {α : Type} {σ : Type}

/-- Free function `indices_row_major`. -/
def indices_row_major (num_rows num_columns : Nat) : List (Nat × Nat) :=
  (List.range num_rows).flatMap
    (fun row => (List.range num_columns).map (fun column => (row, column)))

/-- Free function `indices_column_major`. -/
def indices_column_major (num_rows num_columns : Nat) : List (Nat × Nat) :=
  (List.range num_columns).flatMap
    (fun column => (List.range num_rows).map (fun row => (row, column)))

/-- One step of `Iterator::step_by(k + 1)`: keep the head, drop the next
`k` elements, continue. -/
def everyNth (k : Nat) : List α → List α
  | [] => []
  | a :: rest => a :: everyNth k (rest.drop k)
termination_by l => l.length
decreasing_by simp only [List.length_drop, List.length_cons]; omega

namespace Vecgrid

/-- `num_rows()`. -/
def numRows (g : Vecgrid α) : Nat := g.num_rows

/-- `num_columns()`. -/
def numColumns (g : Vecgrid α) : Nat := g.num_columns

/-- `num_elements()`. -/
def num_elements (g : Vecgrid α) : Nat := g.num_rows * g.num_columns

/-- `row_len()`. -/
def row_len (g : Vecgrid α) : Nat := g.num_columns

/-- `column_len()`. -/
def column_len (g : Vecgrid α) : Nat := g.num_rows

/-- Private helper `get_index`: `Some(row * row_len + column)` iff both
coordinates are in bounds. -/
def get_index (g : Vecgrid α) (row column : Nat) : Option Nat :=
  if row < g.num_rows ∧ column < g.num_columns then
    some (row * g.row_len + column)
  else
    none

/-- `get(row, column)`. -/
def get (g : Vecgrid α) (row column : Nat) : Option α :=
  (g.get_index row column).bind (fun index => g.vecgrid[index]?)

/-- `get_row_major(index)`: `self.vecgrid.get(index)`. -/
def get_row_major (g : Vecgrid α) (index : Nat) : Option α :=
  g.vecgrid[index]?

/-- `get_column_major(index)`: computes `column = index / num_rows` and
`row = index % num_rows` and delegates to `get`.  When `num_rows = 0` the
division aborts the process (Rust division by zero), modelled as `none`. -/
def get_column_major (g : Vecgrid α) (index : Nat) : Option (Option α) :=
  if g.num_rows = 0 then none
  else some (g.get (index % g.num_rows) (index / g.num_rows))

/-- `get_mut_column_major(index)`: same index arithmetic as
`get_column_major`, delegating to `get_mut`; the element the returned
mutable reference denotes is the one `get` reads. -/
def get_mut_column_major (g : Vecgrid α) (index : Nat) : Option (Option α) :=
  if g.num_rows = 0 then none
  else some (g.get (index % g.num_rows) (index / g.num_rows))

/-- `set(row, column, element)`, via `get_mut`. -/
def set (g : Vecgrid α) (row column : Nat) (element : α) :
    Except Error Unit × Vecgrid α :=
  match g.get_index row column with
  | some index => (.ok (), { g with vecgrid := g.vecgrid.set index element })
  | none => (.error (.IndicesOutOfBounds row column), g)

/-- `set_row_major(index, element)`, via `get_mut_row_major`
(`self.vecgrid.get_mut(index)`). -/
def set_row_major (g : Vecgrid α) (index : Nat) (element : α) :
    Except Error Unit × Vecgrid α :=
  if index < g.vecgrid.length then
    (.ok (), { g with vecgrid := g.vecgrid.set index element })
  else
    (.error (.IndexOutOfBounds index), g)

/-- `set_column_major(index, element)`, via `get_mut_column_major`; the
division by `num_rows` aborts on a zero-row grid (modelled as `none`). -/
def set_column_major (g : Vecgrid α) (index : Nat) (element : α) :
    Option (Except Error Unit × Vecgrid α) :=
  if g.num_rows = 0 then none
  else
    some (match g.get_index (index % g.num_rows) (index / g.num_rows) with
      | some j => (.ok (), { g with vecgrid := g.vecgrid.set j element })
      | none => (.error (.IndexOutOfBounds index), g))

/-- `row_iter(row_index)`: the slice `vecgrid[start..start + row_len]`,
where `start = get_index(row_index, 0)?`. -/
def row_iter (g : Vecgrid α) (row_index : Nat) : Except Error (List α) :=
  match g.get_index row_index 0 with
  | none => .error (.IndicesOutOfBounds row_index 0)
  | some start => .ok ((g.vecgrid.drop start).take g.row_len)

/-- `row_iter_mut(row_index)`: same slice, mutably. -/
def row_iter_mut (g : Vecgrid α) (row_index : Nat) : Except Error (List α) :=
  match g.get_index row_index 0 with
  | none => .error (.IndicesOutOfBounds row_index 0)
  | some start => .ok ((g.vecgrid.drop start).take g.row_len)

/-- `column_iter(column_index)`: after the bounds check, each element is
read through the panicking `Index` operator `self[(row_index, column_index)]`;
a failed read is a panic, hence the outer `Option`. -/
def column_iter (g : Vecgrid α) (column_index : Nat) :
    Option (Except Error (List α)) :=
  if column_index ≥ g.num_columns then
    some (.error (.IndicesOutOfBounds 0 column_index))
  else
    ((List.range g.column_len).mapM
      (fun row_index => g.get row_index column_index)).map .ok

/-- `column_iter_mut(column_index)`:
`vecgrid.iter_mut().skip(column_index).step_by(num_columns)`.  The guard
rejects `column_index ≥ num_columns` first, so the step is never zero. -/
def column_iter_mut (g : Vecgrid α) (column_index : Nat) :
    Except Error (List α) :=
  if column_index ≥ g.num_columns then
    .error (.IndicesOutOfBounds 0 column_index)
  else
    .ok (everyNth (g.num_columns - 1) (g.vecgrid.drop column_index))

/-- `rows_iter()`: `row_iter` for every row index, each unwrapped with
`expect("rows_iter should never fail")` — a failing unwrap is a panic. -/
def rows_iter (g : Vecgrid α) : Option (List (List α)) :=
  (List.range g.num_rows).mapM (fun r => (g.row_iter r).toOption)

/-- `as_rows()`: clones the elements produced by `rows_iter`. -/
def as_rows (g : Vecgrid α) : Option (List (List α)) :=
  g.rows_iter

end Vecgrid

/-- `Vecgrid::from_row_major(elements, num_rows, num_columns)`. -/
def from_row_major (elements : List α) (num_rows num_columns : Nat) :
    Except Error (Vecgrid α) :=
  if num_rows * num_columns ≠ elements.length then .error .DimensionMismatch
  else .ok ⟨elements, num_rows, num_columns⟩

/-- `Vecgrid::from_column_major(elements, num_rows, num_columns)`: after
the length check, cell `(row, column)` receives
`elements[column * num_rows + row]`; the guard keeps that index in range,
so the total `getD` agrees with the source's panicking indexing. -/
def from_column_major [Inhabited α] (elements : List α)
    (num_rows num_columns : Nat) : Except Error (Vecgrid α) :=
  if num_rows * num_columns ≠ elements.length then .error .DimensionMismatch
  else
    .ok ⟨(indices_row_major num_rows num_columns).map
          (fun rc => elements.getD (rc.2 * num_rows + rc.1) default),
        num_rows, num_columns⟩

/-- `Vecgrid::filled_with(element, num_rows, num_columns)`. -/
def filled_with (element : α) (num_rows num_columns : Nat) : Vecgrid α :=
  ⟨List.replicate (num_rows * num_columns) element, num_rows, num_columns⟩

/-- Runs the stateful generator `n` times, returning the produced values in
call order together with the final generator state. -/
def genRun (gen : σ → α × σ) : Nat → σ → List α × σ
  | 0, s => ([], s)
  | n + 1, s =>
    let p := gen s
    let q := genRun gen n p.2
    (p.1 :: q.1, q.2)

/-- The state transition of one generator call. -/
def genStep (gen : σ → α × σ) (s : σ) : σ := (gen s).2

/-- The value returned by the `k`-th generator call (counting from 0)
when started in state `s`. -/
def genValue (gen : σ → α × σ) (s : σ) (k : Nat) : α :=
  (gen ((genStep gen)^[k] s)).1

/-- `Vecgrid::filled_by_row_major(generator, num_rows, num_columns)`:
calls the generator `num_rows * num_columns` times and stores the values
directly in row-major order. -/
def filled_by_row_major (gen : σ → α × σ) (num_rows num_columns : Nat)
    (s : σ) : Vecgrid α × σ :=
  let q := genRun gen (num_rows * num_columns) s
  (⟨q.1, num_rows, num_columns⟩, q.2)

/-- `Vecgrid::filled_by_column_major(generator, num_rows, num_columns)`:
calls the generator `num_rows * num_columns` times, then hands the values
to `from_column_major`, unwrapped with `expect("Filled by should never
fail")` (a failing unwrap is a panic, hence the `Option`). -/
def filled_by_column_major [Inhabited α] (gen : σ → α × σ)
    (num_rows num_columns : Nat) (s : σ) : Option (Vecgrid α) × σ :=
  let q := genRun gen (num_rows * num_columns) s
  ((from_column_major q.1 num_rows num_columns).toOption, q.2)

/-- `Vecgrid::from_iter_row_major(iterator, num_rows, num_columns)`:
takes the first `num_rows * num_columns` items and errors with
`NotEnoughElements` when fewer arrive. -/
def from_iter_row_major (iterator : List α) (num_rows num_columns : Nat) :
    Except Error (Vecgrid α) :=
  let v := iterator.take (num_rows * num_columns)
  if v.length ≠ num_rows * num_columns then .error .NotEnoughElements
  else .ok ⟨v, num_rows, num_columns⟩

/-- `Vecgrid::from_iter_column_major(iterator, num_rows, num_columns)`:
takes the first `num_rows * num_columns` items, delegates to
`from_column_major` and maps any error to `NotEnoughElements`. -/
def from_iter_column_major [Inhabited α] (iterator : List α)
    (num_rows num_columns : Nat) : Except Error (Vecgrid α) :=
  match from_column_major (iterator.take (num_rows * num_columns))
      num_rows num_columns with
  | .ok g => .ok g
  | .error _ => .error .NotEnoughElements

/-- `Vecgrid::from_columns(columns)`: all columns must share the length of
the first; cell `(row, column)` receives `columns[column][row]` (in range
under the guard, so the total `getD` chain agrees with the source). -/
def from_columns [Inhabited α] (columns : List (List α)) :
    Except Error (Vecgrid α) :=
  let column_len := ((columns.head?).map List.length).getD 0
  if ¬ columns.all (fun column => column.length = column_len) then
    .error .DimensionMismatch
  else
    let num_rows := column_len
    let num_columns := columns.length
    .ok ⟨(indices_row_major num_rows num_columns).map
          (fun rc => (columns.getD rc.2 []).getD rc.1 default),
        num_rows, num_columns⟩

namespace Vecgrid

/-- `insert_row(row, at)`: the row must have width `num_columns` and `at`
must satisfy `at < num_rows`; the row is spliced in at offset
`at * row_len` and `num_rows` is incremented. -/
def insert_row (g : Vecgrid α) (row : List α) (a : Nat) :
    Except Error Unit × Vecgrid α :=
  if row.length ≠ g.num_columns then (.error .DimensionMismatch, g)
  else if ¬ a < g.num_rows then (.error (.IndexOutOfBounds a), g)
  else
    let i := a * g.row_len
    (.ok (),
      ⟨g.vecgrid.take i ++ row ++ g.vecgrid.drop i, g.num_rows + 1,
        g.num_columns⟩)

/-- `insert_rows(rows, at)`: every row must have width `num_columns` and
`at < num_rows + 1`; the flattened rows are spliced in at offset
`at * row_len` and `num_rows` grows by their count. -/
def insert_rows (g : Vecgrid α) (rows : List (List α)) (a : Nat) :
    Except Error Unit × Vecgrid α :=
  if ¬ rows.all (fun r => r.length = g.num_columns) then
    (.error .DimensionMismatch, g)
  else if ¬ a < g.num_rows + 1 then (.error (.IndexOutOfBounds a), g)
  else
    let i := a * g.row_len
    (.ok (),
      ⟨g.vecgrid.take i ++ rows.flatten ++ g.vecgrid.drop i,
        g.num_rows + rows.length, g.num_columns⟩)

/-- `append_rows(rows)`: `insert_rows` at `num_rows`. -/
def append_rows (g : Vecgrid α) (rows : List (List α)) :
    Except Error Unit × Vecgrid α :=
  g.insert_rows rows g.num_rows

/-- `remove_rows(at, n)`: the source only rejects when
`at > num_rows && at + n > num_rows + 1`; otherwise it drains
`vecgrid[row_len * at .. row_len * at + n * row_len]` — a panic when the
range exceeds the buffer — and decrements `num_rows` by `n`, a checked
subtraction that aborts when `n > num_rows`.  Both panics are `none`. -/
def remove_rows (g : Vecgrid α) (a n : Nat) :
    Option (Except Error Unit × Vecgrid α) :=
  if a > g.num_rows ∧ a + n > g.num_rows + 1 then
    some (.error (.IndicesOutOfBounds a (a + n)), g)
  else
    let start := g.row_len * a
    let stop := start + n * g.row_len
    if stop ≤ g.vecgrid.length ∧ n ≤ g.num_rows then
      some (.ok (),
        ⟨g.vecgrid.take start ++ g.vecgrid.drop stop, g.num_rows - n,
          g.num_columns⟩)
    else none

/-- `remove_row(at)`: `remove_rows(at, 1)`. -/
def remove_row (g : Vecgrid α) (a : Nat) :
    Option (Except Error Unit × Vecgrid α) :=
  g.remove_rows a 1

/-- The linear offset `i * num_columns + ci` that `columns_iter_mut`
computes for the mutable reference to row `i` of column `ci`. -/
def columns_iter_mut_offset (g : Vecgrid α) (ci i : Nat) : Nat :=
  i * g.num_columns + ci

end Vecgrid

/-- `Vecgrid::from_rows(rows)`: starts from the empty grid whose
`num_columns` is the first row's length and delegates to `append_rows`. -/
def from_rows (rows : List (List α)) : Except Error (Vecgrid α) :=
  let row_len := ((rows.head?).map List.length).getD 0
  let g0 : Vecgrid α := ⟨[], 0, row_len⟩
  match g0.append_rows rows with
  | (.ok _, g) => .ok g
  | (.error e, _) => .error e

/-! ## Helper lemmas -/

theorem index_lt_of_lt {r rows c cols : Nat} (hr : r < rows) (hc : c < cols) :
    r * cols + c < rows * cols := by
  have h1 : (r + 1) * cols ≤ rows * cols := Nat.mul_le_mul_right cols hr
  have h2 : (r + 1) * cols = r * cols + cols := Nat.succ_mul r cols
  omega

theorem row_major_offset_inj {r1 r2 c1 c2 cols : Nat} (hc1 : c1 < cols)
    (hc2 : c2 < cols) (h : r1 * cols + c1 = r2 * cols + c2) :
    r1 = r2 ∧ c1 = c2 := by
  have h0 : 0 < cols := by omega
  have d1 : (cols * r1 + c1) / cols = r1 := by
    rw [Nat.mul_add_div h0, Nat.div_eq_of_lt hc1]; omega
  have d2 : (cols * r2 + c2) / cols = r2 := by
    rw [Nat.mul_add_div h0, Nat.div_eq_of_lt hc2]; omega
  have h' : cols * r1 + c1 = cols * r2 + c2 := by
    rw [Nat.mul_comm cols r1, Nat.mul_comm cols r2]; exact h
  have hr : r1 = r2 := by rw [← d1, ← d2, h']
  subst hr
  exact ⟨rfl, by omega⟩

theorem indices_row_major_succ (n c : Nat) :
    indices_row_major (n + 1) c =
      indices_row_major n c ++ (List.range c).map (fun col => (n, col)) := by
  simp [indices_row_major, List.range_succ]

theorem length_indices_row_major (rows cols : Nat) :
    (indices_row_major rows cols).length = rows * cols := by
  induction rows with
  | zero => simp [indices_row_major]
  | succ n ih =>
      rw [indices_row_major_succ, List.length_append, ih, List.length_map,
        List.length_range, Nat.succ_mul]

theorem getElem?_indices_row_major {r rows c cols : Nat} (hr : r < rows)
    (hc : c < cols) :
    (indices_row_major rows cols)[r * cols + c]? = some (r, c) := by
  induction rows with
  | zero => exact absurd hr (Nat.not_lt_zero r)
  | succ n ih =>
      rw [indices_row_major_succ, List.getElem?_append]
      rcases Nat.lt_or_ge r n with h | h
      · rw [if_pos, ih h]
        rw [length_indices_row_major]
        exact index_lt_of_lt h hc
      · have hrn : r = n := by omega
        subst hrn
        rw [if_neg, length_indices_row_major, Nat.add_sub_cancel_left,
          List.getElem?_map, List.getElem?_range hc]
        · rfl
        · rw [length_indices_row_major]; omega

theorem genRun_snd (gen : σ → α × σ) :
    ∀ (n : Nat) (s : σ), (genRun gen n s).2 = (genStep gen)^[n] s := by
  intro n
  induction n with
  | zero => intro s; rfl
  | succ n ih =>
      intro s
      rw [Function.iterate_succ_apply]
      exact ih (genStep gen s)

theorem genRun_length (gen : σ → α × σ) :
    ∀ (n : Nat) (s : σ), (genRun gen n s).1.length = n := by
  intro n
  induction n with
  | zero => intro s; rfl
  | succ n ih => intro s; simp [genRun, ih]

theorem genRun_getElem? (gen : σ → α × σ) :
    ∀ {n k : Nat} (s : σ), k < n →
      (genRun gen n s).1[k]? = some (genValue gen s k) := by
  intro n
  induction n with
  | zero => intro k s hk; exact absurd hk (Nat.not_lt_zero k)
  | succ n ih =>
      intro k s hk
      match k with
      | 0 => simp [genRun, genValue]
      | k + 1 =>
          have : (genRun gen (n + 1) s).1[k + 1]? =
              (genRun gen n (genStep gen s)).1[k]? := by
            simp [genRun, genStep]
          rw [this, ih (genStep gen s) (by omega)]
          simp [genValue, Function.iterate_succ_apply]

theorem mapM_option_eq_some_map {β γ : Type} (f : β → Option γ) (d : γ) :
    ∀ l : List β, (∀ x ∈ l, (f x).isSome) →
      l.mapM f = some (l.map (fun x => (f x).getD d)) := by
  intro l
  induction l with
  | nil => intro _; rfl
  | cons a l ih =>
      intro h
      obtain ⟨y, hy⟩ :=
        Option.isSome_iff_exists.mp (h a (List.mem_cons_self a l))
      rw [List.mapM_cons, ih (fun x hx => h x (List.mem_cons_of_mem a hx))]
      simp [hy]

theorem flatten_length_of_uniform {k : Nat} :
    ∀ (L : List (List α)), (∀ x ∈ L, x.length = k) →
      L.flatten.length = L.length * k := by
  intro L
  induction L with
  | nil => intro _; simp
  | cons a L ih =>
      intro h
      rw [List.flatten_cons, List.length_append,
        ih (fun x hx => h x (List.mem_cons_of_mem a hx)),
        h a (List.mem_cons_self a L), List.length_cons, Nat.succ_mul]
      omega

theorem everyNth_column {cols : Nat} (hc0 : 0 < cols) :
    ∀ (rows : Nat) (buffer : List α) (c : Nat), c < cols →
      buffer.length = rows * cols →
      (everyNth (cols - 1) (buffer.drop c)).length = rows ∧
      ∀ r, r < rows →
        (everyNth (cols - 1) (buffer.drop c))[r]? = buffer[r * cols + c]? := by
  intro rows
  induction rows with
  | zero =>
      intro buffer c _ hlen
      have : buffer = [] := List.eq_nil_of_length_eq_zero (by omega)
      subst this
      exact ⟨by simp [everyNth], fun r hr => absurd hr (Nat.not_lt_zero r)⟩
  | succ n ih =>
      intro buffer c hc hlen
      have hmul : (n + 1) * cols = n * cols + cols := Nat.succ_mul n cols
      have hclen : c < buffer.length := by omega
      have hstep : everyNth (cols - 1) (buffer.drop c) =
          buffer[c] :: everyNth (cols - 1) ((buffer.drop cols).drop c) := by
        rw [List.drop_eq_getElem_cons hclen]
        have e1 : (buffer.drop (c + 1)).drop (cols - 1) =
            buffer.drop ((c + 1) + (cols - 1)) := List.drop_drop _ _ _
        have e2 : (c + 1) + (cols - 1) = cols + c := by omega
        have e3 : (buffer.drop cols).drop c = buffer.drop (cols + c) :=
          List.drop_drop _ _ _
        rw [everyNth, e1, e2, ← e3]
      have hlen' : (buffer.drop cols).length = n * cols := by
        rw [List.length_drop]; omega
      obtain ⟨ihlen, ihget⟩ := ih (buffer.drop cols) c hc hlen'
      constructor
      · rw [hstep, List.length_cons, ihlen]
      · intro r hr
        match r with
        | 0 =>
            rw [hstep]
            simp [List.getElem?_eq_getElem hclen]
        | r + 1 =>
            rw [hstep, List.getElem?_cons_succ, ihget r (by omega),
              List.getElem?_drop]
            congr 1
            rw [Nat.succ_mul]
            omega

theorem get_eq_getElem? (g : Vecgrid α) {r c : Nat} (hr : r < g.num_rows)
    (hc : c < g.num_columns) :
    g.get r c = g.vecgrid[r * g.num_columns + c]? := by
  simp [Vecgrid.get, Vecgrid.get_index, Vecgrid.row_len, hr, hc]

theorem get_oob (g : Vecgrid α) {r c : Nat}
    (h : ¬(r < g.num_rows ∧ c < g.num_columns)) : g.get r c = none := by
  simp [Vecgrid.get, Vecgrid.get_index, h]

theorem get_isSome (g : Vecgrid α) {r c : Nat} (hWF : WF g)
    (hr : r < g.num_rows) (hc : c < g.num_columns) :
    (g.get r c).isSome := by
  rw [get_eq_getElem? g hr hc,
    List.getElem?_eq_getElem (by rw [hWF]; exact index_lt_of_lt hr hc)]
  rfl

theorem getElem?_eq_some_getD [Inhabited α] {g : Vecgrid α} {r c : Nat}
    (hWF : WF g) (hr : r < g.num_rows) (hc : c < g.num_columns) :
    g.vecgrid[r * g.num_columns + c]? = some ((g.get r c).getD default) := by
  have hidx : r * g.num_columns + c < g.vecgrid.length := by
    rw [hWF]; exact index_lt_of_lt hr hc
  rw [get_eq_getElem? g hr hc, List.getElem?_eq_getElem hidx]
  rfl

/-- Modelled from the spec's words: the payload the spec promises for a
single-row iteration — "that row's `num_columns` elements in order". -/
def spec_row_values [Inhabited α] (g : Vecgrid α) (r : Nat) : List α :=
  (List.range g.num_columns).map (fun c => (g.get r c).getD default)

/-- Modelled from the spec's words: the payload the spec promises for a
single-column iteration — "that column's `num_rows` elements in order". -/
def spec_column_values [Inhabited α] (g : Vecgrid α) (c : Nat) : List α :=
  (List.range g.num_rows).map (fun r => (g.get r c).getD default)

/-! ## Claim theorems -/

/-- C1: the bounds check of `remove_rows` (`at > num_rows && at + n >
num_rows + 1`) fails to reject the out-of-range pair `(at, n) = (1, 2)` on
a 2×2 grid (`at + n = 3 > num_rows = 2`): instead of the typed error the
claim requires, the call reaches `drain(2..6)` on a 4-element buffer and
panics (modelled as `none`). -/
theorem c1_remove_rows_oob_drain_panics :
    from_rows [[1, 2], [3, 4]] =
      Except.ok (⟨[1, 2, 3, 4], 2, 2⟩ : Vecgrid Nat) ∧
    Vecgrid.remove_rows (⟨[1, 2, 3, 4], 2, 2⟩ : Vecgrid Nat) 1 2 = none := by
  decide

/-- C2: on a grid with `num_rows = 0` (here `filled_with(42, 0, 3)`),
`get_column_major`, `get_mut_column_major` and `set_column_major` all
divide the index by `num_rows` and abort on division by zero (modelled as
`none`) instead of returning `None` / `Err(IndexOutOfBounds(i))` as the
claim requires. -/
theorem c2_column_major_zero_rows_panics :
    (filled_with (42 : Nat) 0 3).get_column_major 0 = none ∧
    (filled_with (42 : Nat) 0 3).get_mut_column_major 0 = none ∧
    (filled_with (42 : Nat) 0 3).set_column_major 0 7 = none := by
  decide

/-- C3: for the rectangular input `R = [[]]` (one row of length zero),
`from_rows` succeeds with a 1×0 grid, but `as_rows` on that grid panics
(modelled as `none`) — `row_iter(0)` fails the `column < num_columns`
check of `get_index(0, 0)` and the `expect("rows_iter should never
fail")` unwrap aborts — so the round-trip `from_rows(R).as_rows() == R`
the claim requires does not hold. -/
theorem c3_from_rows_empty_row_as_rows_panics :
    from_rows [([] : List Nat)] =
      Except.ok (⟨[], 1, 0⟩ : Vecgrid Nat) ∧
    Vecgrid.as_rows (⟨[], 1, 0⟩ : Vecgrid Nat) = none := by
  decide

/-- C4 counterexample: on the 1×0 grid produced by `from_rows [[]]`, the
row index 0 is in bounds (`0 < num_rows = 1`), yet `row_iter(0)` returns
an error — refuting the claim that `row_iter(r)` returns `Ok` exactly
when `r < num_rows`. -/
theorem c4_row_iter_in_bounds_error :
    from_rows [([] : List Nat)] =
      Except.ok (⟨[], 1, 0⟩ : Vecgrid Nat) ∧
    0 < Vecgrid.numRows (⟨[], 1, 0⟩ : Vecgrid Nat) ∧
    Vecgrid.row_iter (⟨[], 1, 0⟩ : Vecgrid Nat) 0 =
      .error (.IndicesOutOfBounds 0 0) := by
  decide

/-- C5: on every well-formed grid, for every in-bounds pair `(r, c)` the
three addressing schemes agree — `get(r, c)`, `get_row_major(r * cols + c)`
and `get_column_major(c * rows + r)` all denote the same cell — and the
common result is `Some` of the stored element. -/
theorem c5_cross_addressing_agreement (g : Vecgrid α) (r c : Nat)
    (hWF : WF g) (hr : r < g.num_rows) (hc : c < g.num_columns) :
    g.get r c = g.get_row_major (r * g.num_columns + c) ∧
    g.get_column_major (c * g.num_rows + r) = some (g.get r c) ∧
    (g.get r c).isSome := by
  have h0 : 0 < g.num_rows := by omega
  refine ⟨?_, ?_, get_isSome g hWF hr hc⟩
  · rw [get_eq_getElem? g hr hc]; rfl
  · have hmod : (c * g.num_rows + r) % g.num_rows = r := by
      rw [Nat.mul_comm, Nat.mul_add_mod, Nat.mod_eq_of_lt hr]
    have hdiv : (c * g.num_rows + r) / g.num_rows = c := by
      rw [Nat.mul_comm, Nat.mul_add_div h0, Nat.div_eq_of_lt hr]; omega
    rw [Vecgrid.get_column_major, if_neg (by omega), hmod, hdiv]

/-- C5 witness: the 2×3 grid `[[1,2,3],[4,5,6]]` at `(r, c) = (1, 2)`. -/
theorem c5_cross_addressing_agreement_witness :
    WF (⟨[1, 2, 3, 4, 5, 6], 2, 3⟩ : Vecgrid Nat) ∧
    1 < (⟨[1, 2, 3, 4, 5, 6], 2, 3⟩ : Vecgrid Nat).num_rows ∧
    2 < (⟨[1, 2, 3, 4, 5, 6], 2, 3⟩ : Vecgrid Nat).num_columns ∧
    (Vecgrid.get (⟨[1, 2, 3, 4, 5, 6], 2, 3⟩ : Vecgrid Nat) 1 2 =
      Vecgrid.get_row_major (⟨[1, 2, 3, 4, 5, 6], 2, 3⟩ : Vecgrid Nat)
        (1 * 3 + 2) ∧
    Vecgrid.get_column_major (⟨[1, 2, 3, 4, 5, 6], 2, 3⟩ : Vecgrid Nat)
        (2 * 2 + 1) =
      some (Vecgrid.get (⟨[1, 2, 3, 4, 5, 6], 2, 3⟩ : Vecgrid Nat) 1 2) ∧
    (Vecgrid.get (⟨[1, 2, 3, 4, 5, 6], 2, 3⟩ : Vecgrid Nat) 1 2).isSome) :=
  ⟨by decide, by decide, by decide,
    c5_cross_addressing_agreement _ 1 2 (by decide) (by decide) (by decide)⟩

/-- C6: within one `columns_iter_mut` call on a well-formed grid, each
computed linear offset `i * num_columns + ci` lies strictly inside the
buffer, and two distinct index pairs always yield distinct offsets, so no
two of the mutable references handed out address the same position. -/
theorem c6_columns_iter_mut_offsets_disjoint (g : Vecgrid α)
    (i1 c1 i2 c2 : Nat) (hWF : WF g) (hi1 : i1 < g.num_rows)
    (hc1 : c1 < g.num_columns) (hi2 : i2 < g.num_rows)
    (hc2 : c2 < g.num_columns) :
    g.columns_iter_mut_offset c1 i1 < g.vecgrid.length ∧
    ((i1, c1) ≠ (i2, c2) →
      g.columns_iter_mut_offset c1 i1 ≠ g.columns_iter_mut_offset c2 i2) := by
  constructor
  · rw [hWF]
    exact index_lt_of_lt hi1 hc1
  · intro hne heq
    obtain ⟨hi, hc⟩ := row_major_offset_inj hc1 hc2 heq
    exact hne (by rw [hi, hc])

/-- C6 witness: the 2×3 grid at the pairs `(i, ci) = (0, 1)` and
`(1, 0)`. -/
theorem c6_columns_iter_mut_offsets_disjoint_witness :
    WF (⟨[1, 2, 3, 4, 5, 6], 2, 3⟩ : Vecgrid Nat) ∧
    0 < (2 : Nat) ∧ 1 < (3 : Nat) ∧ 1 < (2 : Nat) ∧ 0 < (3 : Nat) ∧
    (Vecgrid.columns_iter_mut_offset
        (⟨[1, 2, 3, 4, 5, 6], 2, 3⟩ : Vecgrid Nat) 1 0 <
      (⟨[1, 2, 3, 4, 5, 6], 2, 3⟩ : Vecgrid Nat).vecgrid.length ∧
    (((0 : Nat), (1 : Nat)) ≠ ((1 : Nat), (0 : Nat)) →
      Vecgrid.columns_iter_mut_offset
          (⟨[1, 2, 3, 4, 5, 6], 2, 3⟩ : Vecgrid Nat) 1 0 ≠
        Vecgrid.columns_iter_mut_offset
          (⟨[1, 2, 3, 4, 5, 6], 2, 3⟩ : Vecgrid Nat) 0 1)) :=
  ⟨by decide, by decide, by decide, by decide, by decide,
    c6_columns_iter_mut_offsets_disjoint _ 0 1 1 0 (by decide) (by decide)
      (by decide) (by decide) (by decide)⟩

/-- C4 amended: on a well-formed grid, `row_iter(r)` and `row_iter_mut(r)`
return `Ok` (the row's `num_columns` elements in order) exactly when
`r < num_rows` AND `num_columns > 0` — on a zero-column grid every row
index, in bounds or not, yields `Err(IndicesOutOfBounds(r, 0))` —
while `column_iter(c)` and `column_iter_mut(c)` return `Ok` (the column's
`num_rows` elements in order) exactly when `c < num_columns` and
`Err(IndicesOutOfBounds(0, c))` otherwise; no index makes any of them
panic, and the returned payloads are the spec-described cell values. -/
theorem c4_iter_bounds_amended [Inhabited α] (g : Vecgrid α) (r c i : Nat)
    (hWF : WF g) :
    ((r < g.num_rows ∧ 0 < g.num_columns) →
      g.row_iter r = .ok (spec_row_values g r) ∧
      g.row_iter_mut r = .ok (spec_row_values g r)) ∧
    (¬(r < g.num_rows ∧ 0 < g.num_columns) →
      g.row_iter r = .error (.IndicesOutOfBounds r 0) ∧
      g.row_iter_mut r = .error (.IndicesOutOfBounds r 0)) ∧
    (i < g.num_columns →
      g.column_iter i = some (.ok (spec_column_values g i)) ∧
      g.column_iter_mut i = .ok (spec_column_values g i)) ∧
    (¬ i < g.num_columns →
      g.column_iter i = some (.error (.IndicesOutOfBounds 0 i)) ∧
      g.column_iter_mut i = .error (.IndicesOutOfBounds 0 i)) ∧
    (r < g.num_rows → c < g.num_columns →
      (spec_row_values g r)[c]? = g.get r c ∧
      (spec_column_values g c)[r]? = g.get r c) := by
  have hrow_ok : ∀ rr, rr < g.num_rows → 0 < g.num_columns →
      (g.vecgrid.drop (rr * g.row_len + 0)).take g.row_len =
        spec_row_values g rr := by
    intro rr hrr hcols
    simp only [Vecgrid.row_len]
    apply List.ext_getElem?
    intro n
    rw [List.getElem?_take]
    by_cases hn : n < g.num_columns
    · rw [if_pos hn, List.getElem?_drop]
      have he : rr * g.num_columns + 0 + n = rr * g.num_columns + n := by
        omega
      rw [he, getElem?_eq_some_getD hWF hrr hn, spec_row_values,
        List.getElem?_map, List.getElem?_range hn]
      rfl
    · rw [if_neg hn, spec_row_values, List.getElem?_map,
        List.getElem?_eq_none (by simpa using Nat.le_of_not_lt hn)]
      rfl
  refine ⟨?_, ?_, ?_, ?_, ?_⟩
  · rintro ⟨hr, hc0⟩
    have hix : g.get_index r 0 = some (r * g.row_len + 0) := by
      simp [Vecgrid.get_index, hr, hc0, Vecgrid.row_len]
    constructor
    · rw [Vecgrid.row_iter, hix]
      exact congrArg Except.ok (hrow_ok r hr hc0)
    · rw [Vecgrid.row_iter_mut, hix]
      exact congrArg Except.ok (hrow_ok r hr hc0)
  · intro h
    have hix : g.get_index r 0 = none := by
      simp only [Vecgrid.get_index, if_neg h]
    exact ⟨by rw [Vecgrid.row_iter, hix], by rw [Vecgrid.row_iter_mut, hix]⟩
  · intro hi
    have hc0 : 0 < g.num_columns := by omega
    constructor
    · rw [Vecgrid.column_iter, if_neg (by omega)]
      simp only [Vecgrid.column_len]
      rw [mapM_option_eq_some_map _ default _
          (fun x hx => get_isSome g hWF (List.mem_range.mp hx) hi)]
      rfl
    · rw [Vecgrid.column_iter_mut, if_neg (by omega)]
      obtain ⟨hlen, hget⟩ :=
        everyNth_column hc0 g.num_rows g.vecgrid i hi hWF
      congr 1
      apply List.ext_getElem?
      intro n
      by_cases hn : n < g.num_rows
      · rw [hget n hn, spec_column_values, List.getElem?_map,
          List.getElem?_range hn, getElem?_eq_some_getD hWF hn hi]
        rfl
      · rw [List.getElem?_eq_none (by omega), spec_column_values,
          List.getElem?_map,
          List.getElem?_eq_none (by simpa using Nat.le_of_not_lt hn)]
        rfl
  · intro hi
    exact ⟨by rw [Vecgrid.column_iter, if_pos (by omega)],
      by rw [Vecgrid.column_iter_mut, if_pos (by omega)]⟩
  · intro hr hc
    have hg : g.get r c = some ((g.get r c).getD default) := by
      obtain ⟨y, hy⟩ :=
        Option.isSome_iff_exists.mp (get_isSome g hWF hr hc)
      rw [hy]; rfl
    constructor
    · rw [spec_row_values, List.getElem?_map, List.getElem?_range hc]
      exact hg.symm
    · rw [spec_column_values, List.getElem?_map, List.getElem?_range hr]
      exact hg.symm

/-- C4 witness: the 2×3 grid `[[1,2,3],[4,5,6]]`, row 1 and column 1. -/
theorem c4_iter_bounds_amended_witness :
    WF (⟨[1, 2, 3, 4, 5, 6], 2, 3⟩ : Vecgrid Nat) ∧
    (1 < (⟨[1, 2, 3, 4, 5, 6], 2, 3⟩ : Vecgrid Nat).num_rows ∧
      0 < (⟨[1, 2, 3, 4, 5, 6], 2, 3⟩ : Vecgrid Nat).num_columns) ∧
    1 < (⟨[1, 2, 3, 4, 5, 6], 2, 3⟩ : Vecgrid Nat).num_columns ∧
    Vecgrid.row_iter (⟨[1, 2, 3, 4, 5, 6], 2, 3⟩ : Vecgrid Nat) 1 =
      .ok (spec_row_values (⟨[1, 2, 3, 4, 5, 6], 2, 3⟩ : Vecgrid Nat) 1) ∧
    Vecgrid.column_iter_mut (⟨[1, 2, 3, 4, 5, 6], 2, 3⟩ : Vecgrid Nat) 1 =
      .ok (spec_column_values (⟨[1, 2, 3, 4, 5, 6], 2, 3⟩ : Vecgrid Nat) 1) :=
  ⟨by decide, by decide, by decide,
    ((c4_iter_bounds_amended (⟨[1, 2, 3, 4, 5, 6], 2, 3⟩ : Vecgrid Nat) 1 2 1
      (by decide)).1 (by decide)).1,
    ((c4_iter_bounds_amended (⟨[1, 2, 3, 4, 5, 6], 2, 3⟩ : Vecgrid Nat) 1 2 1
      (by decide)).2.2.1 (by decide)).2⟩

/-- C10: on a well-formed grid, `set(r, c, v)` with both coordinates in
bounds returns `Ok(())`, stores `v` at cell `(r, c)` and leaves the
dimensions and every other cell unchanged; with either coordinate out of
bounds it returns `Err(IndicesOutOfBounds(r, c))` and leaves the grid
entirely unchanged. -/
theorem c10_set_frame (g : Vecgrid α) (r c r' c' : Nat) (v : α)
    (hWF : WF g) :
    ((r < g.num_rows ∧ c < g.num_columns) →
      (g.set r c v).1 = .ok () ∧
      (g.set r c v).2.num_rows = g.num_rows ∧
      (g.set r c v).2.num_columns = g.num_columns ∧
      (g.set r c v).2.get r c = some v) ∧
    ((r < g.num_rows ∧ c < g.num_columns) → ¬(r' = r ∧ c' = c) →
      (g.set r c v).2.get r' c' = g.get r' c') ∧
    (¬(r < g.num_rows ∧ c < g.num_columns) →
      g.set r c v = (.error (.IndicesOutOfBounds r c), g)) := by
  by_cases h : r < g.num_rows ∧ c < g.num_columns
  · obtain ⟨hr, hc⟩ := h
    have hix : g.get_index r c = some (r * g.num_columns + c) := by
      simp [Vecgrid.get_index, Vecgrid.row_len, hr, hc]
    have hset : g.set r c v =
        (.ok (),
          { g with vecgrid := g.vecgrid.set (r * g.num_columns + c) v }) := by
      rw [Vecgrid.set, hix]
    have hidx : r * g.num_columns + c < g.vecgrid.length := by
      rw [hWF]; exact index_lt_of_lt hr hc
    have hget' : ∀ (L : List α) (r2 c2 : Nat), r2 < g.num_rows →
        c2 < g.num_columns →
        Vecgrid.get (⟨L, g.num_rows, g.num_columns⟩ : Vecgrid α) r2 c2 =
          L[r2 * g.num_columns + c2]? := by
      intro L r2 c2 h1 h2
      simp [Vecgrid.get, Vecgrid.get_index, Vecgrid.row_len, h1, h2]
    refine ⟨fun _ => ⟨by rw [hset], by rw [hset], by rw [hset], ?_⟩,
      fun _ hne => ?_, fun hcon => absurd ⟨hr, hc⟩ hcon⟩
    · rw [hset]
      show Vecgrid.get
          (⟨g.vecgrid.set (r * g.num_columns + c) v, g.num_rows,
            g.num_columns⟩ : Vecgrid α) r c = some v
      rw [hget' _ r c hr hc, List.getElem?_set]
      simp [hidx]
    · rw [hset]
      show Vecgrid.get
          (⟨g.vecgrid.set (r * g.num_columns + c) v, g.num_rows,
            g.num_columns⟩ : Vecgrid α) r' c' = g.get r' c'
      by_cases h' : r' < g.num_rows ∧ c' < g.num_columns
      · rw [hget' _ r' c' h'.1 h'.2, get_eq_getElem? g h'.1 h'.2,
          List.getElem?_set, if_neg]
        intro heq
        obtain ⟨h1, h2⟩ := row_major_offset_inj hc h'.2 heq
        exact hne ⟨h1.symm, h2.symm⟩
      · simp [Vecgrid.get, Vecgrid.get_index, h']
  · refine ⟨fun hcon => absurd hcon h, fun hcon _ => absurd hcon h,
      fun _ => ?_⟩
    have hix : g.get_index r c = none := by
      simp only [Vecgrid.get_index, if_neg h]
    rw [Vecgrid.set, hix]

/-- C10 witness: the 2×3 grid, writing 9 at `(0, 1)`, checking the frame
at `(1, 0)` and the error path at `(5, 5)`. -/
theorem c10_set_frame_witness :
    WF (⟨[1, 2, 3, 4, 5, 6], 2, 3⟩ : Vecgrid Nat) ∧
    (0 < (⟨[1, 2, 3, 4, 5, 6], 2, 3⟩ : Vecgrid Nat).num_rows ∧
      1 < (⟨[1, 2, 3, 4, 5, 6], 2, 3⟩ : Vecgrid Nat).num_columns) ∧
    ¬((1 : Nat) = 0 ∧ (0 : Nat) = 1) ∧
    ¬((5 : Nat) < (⟨[1, 2, 3, 4, 5, 6], 2, 3⟩ : Vecgrid Nat).num_rows ∧
      (5 : Nat) < (⟨[1, 2, 3, 4, 5, 6], 2, 3⟩ : Vecgrid Nat).num_columns) ∧
    ((Vecgrid.set (⟨[1, 2, 3, 4, 5, 6], 2, 3⟩ : Vecgrid Nat) 0 1 9).1 =
        .ok () ∧
      (Vecgrid.set (⟨[1, 2, 3, 4, 5, 6], 2, 3⟩ : Vecgrid Nat) 0 1 9).2.num_rows
        = (⟨[1, 2, 3, 4, 5, 6], 2, 3⟩ : Vecgrid Nat).num_rows ∧
      (Vecgrid.set (⟨[1, 2, 3, 4, 5, 6], 2, 3⟩ :
          Vecgrid Nat) 0 1 9).2.num_columns
        = (⟨[1, 2, 3, 4, 5, 6], 2, 3⟩ : Vecgrid Nat).num_columns ∧
      (Vecgrid.set (⟨[1, 2, 3, 4, 5, 6], 2, 3⟩ : Vecgrid Nat) 0 1 9).2.get 0 1
        = some 9) ∧
    (Vecgrid.set (⟨[1, 2, 3, 4, 5, 6], 2, 3⟩ : Vecgrid Nat) 0 1 9).2.get 1 0 =
      Vecgrid.get (⟨[1, 2, 3, 4, 5, 6], 2, 3⟩ : Vecgrid Nat) 1 0 ∧
    Vecgrid.set (⟨[1, 2, 3, 4, 5, 6], 2, 3⟩ : Vecgrid Nat) 5 5 9 =
      (.error (.IndicesOutOfBounds 5 5),
        (⟨[1, 2, 3, 4, 5, 6], 2, 3⟩ : Vecgrid Nat)) :=
  ⟨by decide, by decide, by decide, by decide,
    (c10_set_frame (⟨[1, 2, 3, 4, 5, 6], 2, 3⟩ : Vecgrid Nat) 0 1 1 0 9
      (by decide)).1 (by decide),
    (c10_set_frame (⟨[1, 2, 3, 4, 5, 6], 2, 3⟩ : Vecgrid Nat) 0 1 1 0 9
      (by decide)).2.1 (by decide) (by decide),
    (c10_set_frame (⟨[1, 2, 3, 4, 5, 6], 2, 3⟩ : Vecgrid Nat) 5 5 0 0 9
      (by decide)).2.2 (by decide)⟩

/-- C9: on a well-formed grid, inserting a row `v` of width `num_columns`
at an in-bounds index `k` and then removing the row at `k` both succeed
and restore the original grid, structurally equal. -/
theorem c9_insert_remove_inverse (g : Vecgrid α) (v : List α) (k : Nat)
    (hWF : WF g) (hk : k < g.num_rows) (hv : v.length = g.num_columns) :
    (g.insert_row v k).1 = .ok () ∧
    (g.insert_row v k).2.remove_row k = some (.ok (), g) := by
  obtain ⟨A, rows, cols⟩ := g
  simp only [WF] at hWF
  simp only at hk hv
  have hins : Vecgrid.insert_row (⟨A, rows, cols⟩ : Vecgrid α) v k =
      (.ok (),
        ⟨A.take (k * cols) ++ v ++ A.drop (k * cols), rows + 1, cols⟩) := by
    simp [Vecgrid.insert_row, Vecgrid.row_len, hv, hk]
  rw [hins]
  refine ⟨rfl, ?_⟩
  have hXlen : (A.take (k * cols)).length = k * cols := by
    rw [List.length_take]
    have : k * cols ≤ rows * cols := Nat.mul_le_mul_right cols (le_of_lt hk)
    omega
  have hguard : ¬(k > rows + 1 ∧ k + 1 > rows + 1 + 1) := by omega
  have hcond : cols * k + 1 * cols ≤
      (A.take (k * cols) ++ v ++ A.drop (k * cols)).length ∧
      1 ≤ rows + 1 := by
    have h1 : (k + 1) * cols ≤ rows * cols := Nat.mul_le_mul_right cols hk
    have h2 : (k + 1) * cols = k * cols + cols := Nat.succ_mul k cols
    have h3 : cols * k = k * cols := Nat.mul_comm cols k
    have h4 : (A.take (k * cols) ++ v ++ A.drop (k * cols)).length =
        k * cols + cols + (A.length - k * cols) := by
      simp [List.length_append, hXlen, hv]; omega
    omega
  simp only [Vecgrid.remove_row, Vecgrid.remove_rows, Vecgrid.row_len]
  rw [if_neg hguard, if_pos hcond]
  have htake : (A.take (k * cols) ++ v ++ A.drop (k * cols)).take
      (cols * k) = A.take (k * cols) := by
    rw [Nat.mul_comm cols k, List.append_assoc]
    exact List.take_left' hXlen
  have hdrop : (A.take (k * cols) ++ v ++ A.drop (k * cols)).drop
      (cols * k + 1 * cols) = A.drop (k * cols) := by
    have hXV : (A.take (k * cols) ++ v).length = cols * k + 1 * cols := by
      rw [List.length_append, hXlen, hv, Nat.mul_comm cols k, Nat.one_mul]
    exact List.drop_left' hXV
  rw [htake, hdrop, List.take_append_drop]
  simp

/-- C9 witness: inserting `[7, 8, 9]` at index 1 of the 2×3 grid
`[[1,2,3],[4,5,6]]`, then removing row 1. -/
theorem c9_insert_remove_inverse_witness :
    WF (⟨[1, 2, 3, 4, 5, 6], 2, 3⟩ : Vecgrid Nat) ∧
    1 < (⟨[1, 2, 3, 4, 5, 6], 2, 3⟩ : Vecgrid Nat).num_rows ∧
    ([7, 8, 9] : List Nat).length =
      (⟨[1, 2, 3, 4, 5, 6], 2, 3⟩ : Vecgrid Nat).num_columns ∧
    ((Vecgrid.insert_row (⟨[1, 2, 3, 4, 5, 6], 2, 3⟩ : Vecgrid Nat)
        [7, 8, 9] 1).1 = .ok () ∧
      (Vecgrid.insert_row (⟨[1, 2, 3, 4, 5, 6], 2, 3⟩ : Vecgrid Nat)
        [7, 8, 9] 1).2.remove_row 1 =
        some (.ok (), (⟨[1, 2, 3, 4, 5, 6], 2, 3⟩ : Vecgrid Nat))) :=
  ⟨by decide, by decide, by decide,
    c9_insert_remove_inverse (⟨[1, 2, 3, 4, 5, 6], 2, 3⟩ : Vecgrid Nat)
      [7, 8, 9] 1 (by decide) (by decide) (by decide)⟩

theorem get_map_indices (f : Nat × Nat → α) {rows cols r c : Nat}
    (hr : r < rows) (hc : c < cols) :
    Vecgrid.get
        (⟨(indices_row_major rows cols).map f, rows, cols⟩ : Vecgrid α) r c =
      some (f (r, c)) := by
  simp only [Vecgrid.get, Vecgrid.get_index, Vecgrid.row_len]
  rw [if_pos ⟨hr, hc⟩]
  show ((indices_row_major rows cols).map f)[r * cols + c]? = some (f (r, c))
  rw [List.getElem?_map, getElem?_indices_row_major hr hc]
  rfl

theorem from_column_major_ok [Inhabited α] {elements : List α}
    {rows cols : Nat} (h : rows * cols = elements.length) :
    from_column_major elements rows cols =
      .ok ⟨(indices_row_major rows cols).map
          (fun rc => elements.getD (rc.2 * rows + rc.1) default),
        rows, cols⟩ := by
  rw [from_column_major, if_neg (by omega)]

theorem from_column_major_WF [Inhabited α] {elements : List α}
    {rows cols : Nat} {g : Vecgrid α} :
    from_column_major elements rows cols = .ok g → WF g := by
  unfold from_column_major
  split
  · intro h; exact Except.noConfusion h
  · intro h
    cases h
    unfold WF
    simp [List.length_map, length_indices_row_major]

/-- C7: the `filled_by_*` constructors call the generator exactly
`rows * cols` times (the final generator state is the `rows * cols`-fold
iterate of the per-call state transition); `filled_by_column_major` never
hits its `expect` and stores the `(c * rows + r)`-th generated value at
cell `(r, c)`, while `filled_by_row_major` stores the `k`-th generated
value at row-major offset `k`. -/
theorem c7_filled_by_generator [Inhabited α] (gen : σ → α × σ)
    (rows cols : Nat) (s : σ) (r c k : Nat)
    (hr : r < rows) (hc : c < cols) (hk : k < rows * cols) :
    (filled_by_column_major gen rows cols s).2 =
      (genStep gen)^[rows * cols] s ∧
    ((filled_by_column_major gen rows cols s).1).isSome ∧
    ((filled_by_column_major gen rows cols s).1.getD ⟨[], 0, 0⟩).get r c =
      some (genValue gen s (c * rows + r)) ∧
    (filled_by_row_major gen rows cols s).2 =
      (genStep gen)^[rows * cols] s ∧
    ((filled_by_row_major gen rows cols s).1).get_row_major k =
      some (genValue gen s k) := by
  have hlen : (genRun gen (rows * cols) s).1.length = rows * cols :=
    genRun_length gen _ s
  have hok : from_column_major (genRun gen (rows * cols) s).1 rows cols =
      .ok ⟨(indices_row_major rows cols).map
          (fun rc => (genRun gen (rows * cols) s).1.getD
            (rc.2 * rows + rc.1) default),
        rows, cols⟩ := from_column_major_ok (by omega)
  refine ⟨?_, ?_, ?_, ?_, ?_⟩
  · exact genRun_snd gen _ s
  · show (from_column_major
        (genRun gen (rows * cols) s).1 rows cols).toOption.isSome
    rw [hok]; rfl
  · show ((from_column_major
        (genRun gen (rows * cols) s).1 rows cols).toOption.getD
        ⟨[], 0, 0⟩).get r c = _
    rw [hok]
    show Vecgrid.get
        (⟨(indices_row_major rows cols).map
          (fun rc => (genRun gen (rows * cols) s).1.getD
            (rc.2 * rows + rc.1) default), rows, cols⟩ : Vecgrid α) r c = _
    rw [get_map_indices _ hr hc]
    congr 1
    have hidx : c * rows + r < rows * cols := by
      have h1 := index_lt_of_lt hc hr
      have h2 : cols * rows = rows * cols := Nat.mul_comm cols rows
      omega
    show (genRun gen (rows * cols) s).1.getD (c * rows + r) default = _
    rw [List.getD_eq_getElem?_getD, genRun_getElem? gen s hidx]
    rfl
  · exact genRun_snd gen _ s
  · show (genRun gen (rows * cols) s).1[k]? = _
    exact genRun_getElem? gen s hk

/-- C7 witness: the counter generator `n ↦ (n, n + 1)` started at 0 on a
2×3 grid, at `(r, c) = (1, 2)` and row-major offset `k = 4`. -/
theorem c7_filled_by_generator_witness :
    1 < (2 : Nat) ∧ 2 < (3 : Nat) ∧ 4 < (2 : Nat) * 3 ∧
    ((filled_by_column_major (fun n => (n, n + 1)) 2 3 0).2 =
      (genStep (fun n => (n, n + 1)))^[2 * 3] 0 ∧
    ((filled_by_column_major (fun n => (n, n + 1)) 2 3 0).1).isSome ∧
    ((filled_by_column_major (fun n => (n, n + 1)) 2 3 0).1.getD
        ⟨[], 0, 0⟩).get 1 2 =
      some (genValue (fun n => (n, n + 1)) 0 (2 * 2 + 1)) ∧
    (filled_by_row_major (fun n => (n, n + 1)) 2 3 0).2 =
      (genStep (fun n => (n, n + 1)))^[2 * 3] 0 ∧
    ((filled_by_row_major (fun n => (n, n + 1)) 2 3 0).1).get_row_major 4 =
      some (genValue (fun n => (n, n + 1)) (0 : Nat) 4)) :=
  ⟨by decide, by decide, by decide,
    c7_filled_by_generator (fun n => (n, n + 1)) 2 3 0 1 2 4
      (by decide) (by decide) (by decide)⟩

/-- `WF` lifted to a fallible constructor result: holds vacuously on the
error path. -/
def OkWF : Except Error (Vecgrid α) → Prop
  | .ok g => WF g
  | .error _ => True

/-- `WF` lifted to a possibly-panicking constructor result. -/
def OptGridWF : Option (Vecgrid α) → Prop
  | none => True
  | some g => WF g

/-- `WF` of the grid component of a possibly-panicking mutation result. -/
def OptPairWF : Option (Except Error Unit × Vecgrid α) → Prop
  | none => True
  | some p => WF p.2

theorem insert_rows_WF {g : Vecgrid α} {R : List (List α)} {a : Nat}
    (hWF : WF g) : WF (g.insert_rows R a).2 := by
  unfold Vecgrid.insert_rows
  split_ifs with h1 h2
  · have hall : ∀ x ∈ R, x.length = g.num_columns := by
      simpa [List.all_eq_true] using h1
    have ha : a ≤ g.num_rows := by omega
    show WF ⟨g.vecgrid.take (a * g.row_len) ++ R.flatten ++
        g.vecgrid.drop (a * g.row_len), g.num_rows + R.length,
        g.num_columns⟩
    unfold WF at hWF ⊢
    simp only [List.length_append, List.length_take, List.length_drop,
      Vecgrid.row_len]
    rw [flatten_length_of_uniform R hall]
    have hi : a * g.num_columns ≤ g.num_rows * g.num_columns :=
      Nat.mul_le_mul_right _ ha
    have hadd : (g.num_rows + R.length) * g.num_columns =
        g.num_rows * g.num_columns + R.length * g.num_columns :=
      Nat.add_mul _ _ _
    omega
  · exact hWF
  · exact hWF

theorem remove_rows_WF {g : Vecgrid α} {a n : Nat} (hWF : WF g) :
    OptPairWF (g.remove_rows a n) := by
  simp only [Vecgrid.remove_rows, Vecgrid.row_len]
  split_ifs with h1 h2
  · exact hWF
  · show WF ⟨g.vecgrid.take (g.num_columns * a) ++
        g.vecgrid.drop (g.num_columns * a + n * g.num_columns),
        g.num_rows - n, g.num_columns⟩
    unfold WF at hWF ⊢
    simp only [List.length_append, List.length_take, List.length_drop]
    have hsub : (g.num_rows - n) * g.num_columns =
        g.num_rows * g.num_columns - n * g.num_columns :=
      Nat.sub_mul _ _ _
    omega
  · trivial

theorem from_rows_eq (R : List (List α)) :
    from_rows R = (match Vecgrid.insert_rows
        (⟨[], 0, ((R.head?).map List.length).getD 0⟩ : Vecgrid α) R 0 with
      | (.ok _, g) => .ok g
      | (.error e, _) => .error e) := rfl

theorem from_rows_WF {R : List (List α)} {g : Vecgrid α} :
    from_rows R = .ok g → WF g := by
  intro h
  rw [from_rows_eq] at h
  have h0 : WF (⟨[], 0, ((R.head?).map List.length).getD 0⟩ : Vecgrid α) := by
    simp [WF]
  have hins := insert_rows_WF (R := R) (a := 0) h0
  rcases hsc : Vecgrid.insert_rows
      (⟨[], 0, ((R.head?).map List.length).getD 0⟩ : Vecgrid α) R 0
    with ⟨e, g'⟩
  rw [hsc] at h hins
  cases e with
  | error err => exact Except.noConfusion h
  | ok u =>
      have hg : g' = g := by simpa using h
      rw [← hg]
      exact hins

theorem from_columns_WF [Inhabited α] {C : List (List α)} {g : Vecgrid α} :
    from_columns C = .ok g → WF g := by
  intro h
  simp only [from_columns] at h
  split at h
  · exact Except.noConfusion h
  · injection h with h
    rw [← h]
    unfold WF
    simp [List.length_map, length_indices_row_major]

theorem from_row_major_WF {e : List α} {nr nc : Nat} {g : Vecgrid α} :
    from_row_major e nr nc = .ok g → WF g := by
  intro h
  unfold from_row_major at h
  split at h
  · exact Except.noConfusion h
  · rename_i hlen
    injection h with h
    rw [← h]
    show e.length = nr * nc
    omega

/-- C8: the representation invariant `buffer.len() = num_rows *
num_columns` holds after every construction or mutation operation that
returns successfully (vacuously on error and panic paths, where the grid
is returned unchanged or no grid is observable), and `num_elements()` is
the product `num_rows() * num_columns()`. -/
theorem c8_dimension_invariant [Inhabited α] (g : Vecgrid α)
    (R C : List (List α)) (nrow flat itr : List α) (x v : α)
    (nr nc a n rr cc i : Nat) (gen : σ → α × σ) (s : σ)
    (hWF : WF g) :
    OkWF (from_rows R) ∧
    OkWF (from_columns C) ∧
    OkWF (from_row_major flat nr nc) ∧
    OkWF (from_column_major flat nr nc) ∧
    WF (filled_with x nr nc) ∧
    WF (filled_by_row_major gen nr nc s).1 ∧
    OptGridWF (filled_by_column_major gen nr nc s).1 ∧
    OkWF (from_iter_row_major itr nr nc) ∧
    OkWF (from_iter_column_major itr nr nc) ∧
    WF (g.set rr cc v).2 ∧
    WF (g.set_row_major i v).2 ∧
    OptPairWF (g.set_column_major i v) ∧
    WF (g.insert_row nrow a).2 ∧
    WF (g.insert_rows R a).2 ∧
    WF (g.append_rows R).2 ∧
    OptPairWF (g.remove_row a) ∧
    OptPairWF (g.remove_rows a n) ∧
    g.num_elements = g.num_rows * g.num_columns := by
  have okwf : ∀ {y : Except Error (Vecgrid α)},
      (∀ g', y = .ok g' → WF g') → OkWF y := by
    intro y hy
    cases y with
    | error err => trivial
    | ok g' => exact hy g' rfl
  refine ⟨okwf (fun g' h => from_rows_WF h),
    okwf (fun g' h => from_columns_WF h),
    okwf (fun g' h => from_row_major_WF h),
    okwf (fun g' h => from_column_major_WF h),
    ?_, ?_, ?_, ?_, ?_, ?_, ?_, ?_, ?_,
    insert_rows_WF hWF, insert_rows_WF hWF,
    remove_rows_WF hWF, remove_rows_WF hWF, rfl⟩
  · show (List.replicate (nr * nc) x).length = nr * nc
    simp
  · show (genRun gen (nr * nc) s).1.length = nr * nc
    exact genRun_length gen _ s
  · show OptGridWF
      (from_column_major (genRun gen (nr * nc) s).1 nr nc).toOption
    cases hfc : from_column_major (genRun gen (nr * nc) s).1 nr nc with
    | error err => trivial
    | ok g' => exact from_column_major_WF hfc
  · refine okwf (fun g' h => ?_)
    simp only [from_iter_row_major] at h
    split at h
    · exact Except.noConfusion h
    · rename_i hlen
      injection h with h
      rw [← h]
      show (itr.take (nr * nc)).length = nr * nc
      omega
  · refine okwf (fun g' h => ?_)
    unfold from_iter_column_major at h
    cases hfc : from_column_major (itr.take (nr * nc)) nr nc with
    | error err => rw [hfc] at h; exact Except.noConfusion h
    | ok g2 =>
        rw [hfc] at h
        injection h with h
        rw [← h]
        exact from_column_major_WF hfc
  · show WF (g.set rr cc v).2
    unfold Vecgrid.set
    split
    · show WF ⟨g.vecgrid.set _ v, g.num_rows, g.num_columns⟩
      unfold WF at hWF ⊢
      simp only [List.length_set]
      exact hWF
    · exact hWF
  · unfold Vecgrid.set_row_major
    split_ifs with h0
    · show WF ⟨g.vecgrid.set i v, g.num_rows, g.num_columns⟩
      unfold WF at hWF ⊢
      simp only [List.length_set]
      exact hWF
    · exact hWF
  · unfold Vecgrid.set_column_major
    split_ifs with h0
    · trivial
    · split
      · show WF ⟨g.vecgrid.set _ v, g.num_rows, g.num_columns⟩
        unfold WF at hWF ⊢
        simp only [List.length_set]
        exact hWF
      · exact hWF
  · unfold Vecgrid.insert_row
    split_ifs with h1 h2
    all_goals try exact hWF
    show WF ⟨g.vecgrid.take (a * g.row_len) ++ nrow ++
        g.vecgrid.drop (a * g.row_len), g.num_rows + 1, g.num_columns⟩
    have hrow : nrow.length = g.num_columns := by omega
    have ha : a ≤ g.num_rows := by omega
    unfold WF at hWF ⊢
    simp only [List.length_append, List.length_take, List.length_drop,
      Vecgrid.row_len]
    have hi : a * g.num_columns ≤ g.num_rows * g.num_columns :=
      Nat.mul_le_mul_right _ ha
    have hadd : (g.num_rows + 1) * g.num_columns =
        g.num_rows * g.num_columns + g.num_columns := Nat.succ_mul _ _
    omega

/-- C8 witness: all operations instantiated on the 2×3 grid
`[[1,2,3],[4,5,6]]` and small concrete inputs. -/
theorem c8_dimension_invariant_witness :
    WF (⟨[1, 2, 3, 4, 5, 6], 2, 3⟩ : Vecgrid Nat) ∧
    (OkWF (from_rows [[7, 8, 9]]) ∧
    OkWF (from_columns [[1, 2]]) ∧
    OkWF (from_row_major [1, 2, 3, 4, 5, 6] 2 3) ∧
    OkWF (from_column_major [1, 2, 3, 4, 5, 6] 2 3) ∧
    WF (filled_with (42 : Nat) 2 3) ∧
    WF (filled_by_row_major (fun m => (m, m + 1)) 2 3 0).1 ∧
    OptGridWF (filled_by_column_major (fun m => (m, m + 1)) 2 3 0).1 ∧
    OkWF (from_iter_row_major [1, 2, 3, 4, 5, 6, 7] 2 3) ∧
    OkWF (from_iter_column_major [1, 2, 3, 4, 5, 6, 7] 2 3) ∧
    WF (Vecgrid.set (⟨[1, 2, 3, 4, 5, 6], 2, 3⟩ : Vecgrid Nat) 0 1 9).2 ∧
    WF (Vecgrid.set_row_major (⟨[1, 2, 3, 4, 5, 6], 2, 3⟩ : Vecgrid Nat) 2 9).2 ∧
    OptPairWF (Vecgrid.set_column_major (⟨[1, 2, 3, 4, 5, 6], 2, 3⟩ : Vecgrid Nat) 2 9) ∧
    WF (Vecgrid.insert_row (⟨[1, 2, 3, 4, 5, 6], 2, 3⟩ : Vecgrid Nat) [7, 8, 9] 1).2 ∧
    WF (Vecgrid.insert_rows (⟨[1, 2, 3, 4, 5, 6], 2, 3⟩ : Vecgrid Nat) [[7, 8, 9]] 1).2 ∧
    WF (Vecgrid.append_rows (⟨[1, 2, 3, 4, 5, 6], 2, 3⟩ : Vecgrid Nat) [[7, 8, 9]]).2 ∧
    OptPairWF (Vecgrid.remove_row (⟨[1, 2, 3, 4, 5, 6], 2, 3⟩ : Vecgrid Nat) 1) ∧
    OptPairWF (Vecgrid.remove_rows (⟨[1, 2, 3, 4, 5, 6], 2, 3⟩ : Vecgrid Nat) 1 1) ∧
    Vecgrid.num_elements (⟨[1, 2, 3, 4, 5, 6], 2, 3⟩ : Vecgrid Nat) =
      (⟨[1, 2, 3, 4, 5, 6], 2, 3⟩ : Vecgrid Nat).num_rows * (⟨[1, 2, 3, 4, 5, 6], 2, 3⟩ : Vecgrid Nat).num_columns) :=
  ⟨by decide,
    c8_dimension_invariant (⟨[1, 2, 3, 4, 5, 6], 2, 3⟩ : Vecgrid Nat) [[7, 8, 9]] [[1, 2]] [7, 8, 9]
      [1, 2, 3, 4, 5, 6] [1, 2, 3, 4, 5, 6, 7] 42 9 2 3 1 1 0 1 2
      (fun m => (m, m + 1)) 0 (by decide)⟩

end VecgridSpec
